import Mathlib

/-!
Verification of the voice-activity-gated audio capture loop of the
omnivocal repository (src/omnivocal/audio.py), shallowly embedded in Lean.

Floats are modelled as rationals; the third-party webrtcvad classifier is
an oracle from the PCM bytes it is fed (and the sample rate) to an outcome,
where a `fault` outcome models the classifier raising an exception.
-/

namespace Omnivocal

/-- Outcome of one call to the third-party classifier `vad.is_speech`:
speech, silence, or a raised exception (`fault`). -/
inductive VadOut where
  | speech
  | silence
  | fault
deriving DecidableEq, Repr

/-- One audio frame as delivered to the callback: `indata` of shape
(frame_count, channels), a list of sample rows, each row holding one
float sample per channel. -/
abbrev Frame := List (List ℚ)

/-- `indata[:, 0]`: channel 0 of a frame (first entry of each row). -/
def col0 (f : Frame) : List ℚ := f.map (fun row => row.headD 0)

/-- Clipping of one sample to [-1.0, 1.0], as done elementwise by
`np.clip(data, -1.0, 1.0)` in `_float_to_pcm16`. -/
def clip1 (x : ℚ) : ℚ := max (-1) (min 1 x)

/-- `np.clip(data, -1.0, 1.0)` (audio.py line 156). -/
def np_clip (data : List ℚ) : List ℚ := data.map clip1

/-- Truncation toward zero, the rounding used by numpy's float → int16 cast. -/
def trunc_to_int (q : ℚ) : ℤ := if 0 ≤ q then ⌊q⌋ else ⌈q⌉

/-- `(data * 32767.0).astype(np.int16)` (audio.py line 157). -/
def astype_int16 (data : List ℚ) : List ℤ := data.map (fun x => trunc_to_int (x * 32767))

/-- Low byte of the two's-complement little-endian int16 layout of `tobytes()`. -/
def byte_lo (v : ℤ) : ℕ := (Int.emod (Int.emod v 65536) 256).toNat

/-- High byte of the two's-complement little-endian int16 layout of `tobytes()`. -/
def byte_hi (v : ℤ) : ℕ := (Int.ediv (Int.emod v 65536) 256).toNat

/-- The two's-complement little-endian byte pair of one int16 value. -/
def int16_le_bytes (v : ℤ) : List ℕ := [byte_lo v, byte_hi v]

/-- `pcm.tobytes()` (audio.py line 158): int16 values laid out as
little-endian byte pairs in order. -/
def tobytes (vs : List ℤ) : List ℕ := vs.flatMap int16_le_bytes

/-- `_float_to_pcm16(data)` (audio.py lines 154-158). -/
def float_to_pcm16 (data : List ℚ) : List ℕ := tobytes (astype_int16 (np_clip data))

/-- The clip-scale-truncate-encode pipeline applied to a single sample. -/
def pcm16_pair (x : ℚ) : List ℕ := int16_le_bytes (trunc_to_int (clip1 x * 32767))

/-- Configuration fields of `RecordingConfig` and `VadConfig` consumed by
`Recorder._record_to_path` (config.py lines 49-61). -/
structure CaptureCfg where
  sample_rate : ℕ
  channels : ℕ
  max_seconds : ℕ
  vad_enabled : Bool
  silence_ms_to_stop : ℕ
deriving DecidableEq, Repr

/-- The third-party classifier as an oracle: from the PCM16 bytes it is fed
and the sample rate to an outcome (`fault` = the call raised). -/
abbrev VadOracle := List ℕ → ℕ → VadOut

/-- `self.vad.is_speech(_float_to_pcm16(indata[:, 0]), sample_rate)`
(audio.py lines 89-90): only channel 0 of the frame is encoded and fed to
the classifier. -/
def classify (vad : VadOracle) (cfg : CaptureCfg) (f : Frame) : VadOut :=
  vad (float_to_pcm16 (col0 f)) cfg.sample_rate

/-- The mutable cells of one recording session: the closure variables
`frames`, `silence_duration`, `has_detected_speech`, `recording_finished`
of `_record_to_path` (audio.py lines 71-74). -/
structure CaptureState where
  frames : List Frame
  silence_duration : ℚ
  has_detected_speech : Bool
  recording_finished : Bool
deriving DecidableEq, Repr

/-- The state at stream start (audio.py lines 71-74). -/
def initState : CaptureState :=
  { frames := [], silence_duration := 0, has_detected_speech := false,
    recording_finished := false }

/-- One invocation of `callback` (audio.py lines 76-106) on one delivered
frame.  The frame is always appended; VAD logic runs only when the vad
object exists; a classifier `fault` is swallowed by the broad except and
leaves the VAD state untouched; on a silence frame after speech was
detected, `silence_duration` grows by frame_count / sample_rate and the
stop flag is set once `silence_duration * 1000` reaches the threshold.
(The `sd.CallbackStop` raised there derives from `Exception`, so it is
swallowed by the same except clause; the stop is effected solely through
`recording_finished`, which the supervisor polls.) -/
def callback_step (cfg : CaptureCfg) (vad : VadOracle) (st : CaptureState)
    (f : Frame) : CaptureState :=
  let st1 := { st with frames := st.frames ++ [f] }
  if cfg.vad_enabled then
    match classify vad cfg f with
    | .fault => st1
    | .speech => { st1 with has_detected_speech := true, silence_duration := 0 }
    | .silence =>
        if st.has_detected_speech then
          let sd := st.silence_duration + (f.length : ℚ) / (cfg.sample_rate : ℚ)
          if (cfg.silence_ms_to_stop : ℚ) ≤ sd * 1000 then
            { st1 with silence_duration := sd, recording_finished := true }
          else
            { st1 with silence_duration := sd }
        else st1
  else st1

/-- The callback applied to a sequence of delivered frames in order. -/
def run_callbacks (cfg : CaptureCfg) (vad : VadOracle) (st : CaptureState)
    (fs : List Frame) : CaptureState :=
  fs.foldl (callback_step cfg vad) st

/-- The supervising poll loop's continuation condition (audio.py lines
121-124): `stream.active and elapsed < max_duration`, with the body
breaking out as soon as `recording_finished` is observed. -/
def supervisor_continues (active : Bool) (elapsed max_duration : ℚ)
    (recording_finished : Bool) : Bool :=
  active && decide (elapsed < max_duration) && !recording_finished

/-- The WAV artifact written by `_write_wav` (audio.py lines 147-151). -/
structure WavFile where
  nchannels : ℕ
  sampwidth : ℕ
  framerate : ℕ
  frame_bytes : List ℕ
deriving DecidableEq, Repr

/-- Errors escaping `Recorder._record_to_path`: `AudioError` (in
particular "No audio captured") and a propagating `KeyboardInterrupt`
(which is not a Python `Exception`, so neither except clause of
audio.py lines 125-129 catches it). -/
inductive RecordError where
  | audioError (msg : String)
  | keyboardInterrupt
deriving DecidableEq, Repr

/-- `data.size` of a 2-D sample array: total number of elements. -/
def np_size (data : List (List ℚ)) : ℕ := (data.map List.length).sum

/-- `Recorder._write_wav` (audio.py lines 139-151): raises
AudioError("No audio captured") when the array is empty, before any file
is opened; otherwise flattens (column 0 when mono, row-major interleave
otherwise), encodes to PCM16 and writes the WAV artifact. -/
def write_wav (cfg : CaptureCfg) (data : List (List ℚ)) : Except RecordError WavFile :=
  if np_size data = 0 then .error (.audioError "No audio captured")
  else
    let flattened := if cfg.channels = 1 then col0 data else data.flatten
    .ok { nchannels := cfg.channels, sampwidth := 2, framerate := cfg.sample_rate,
          frame_bytes := float_to_pcm16 flattened }

/-- How the stream section of `_record_to_path` ended: normally
(silence stop or timeout), or by an external cancel (KeyboardInterrupt
delivered during the poll loop). -/
inductive CaptureOutcome where
  | completed
  | interrupted
deriving DecidableEq, Repr

/-- The tail of `Recorder._record_to_path` (audio.py lines 108-137).  On a
completed run the buffered frames are concatenated
(`np.concatenate(frames, axis=0)`, empty array when no frames) and handed
to `_write_wav`.  A KeyboardInterrupt is not an `Exception`, so it
propagates out of the function before line 137: `_write_wav` is never
reached and no artifact is produced. -/
def record_to_path (cfg : CaptureCfg) (outcome : CaptureOutcome)
    (st : CaptureState) : Except RecordError WavFile :=
  match outcome with
  | .interrupted => .error .keyboardInterrupt
  | .completed => write_wav cfg st.frames.flatten

/-- The recording section of `_command_once` (cli.py lines 109-116):
KeyboardInterrupt prints "Recording interrupted" and returns exit code 1;
AudioError prints the failure and returns 1; otherwise the recorded
artifact is carried forward (exit code 0 for this section). -/
def command_once_record (res : Except RecordError WavFile) : ℕ × Option WavFile :=
  match res with
  | .error .keyboardInterrupt => (1, none)
  | .error (.audioError _) => (1, none)
  | .ok w => (0, some w)

/-- The IEEE-754 double nearest 0.02, exactly: 5764607523034235 / 2^58.
Note 50 * 5764607523034235 = 2^58 + 6, so this constant is slightly
above 1/50. -/
def double_0_02 : ℚ := 5764607523034235 / 2 ^ 58

/-- `int(sample_rate * 0.02)` (audio.py line 69): the product with the
double constant 0.02, taken in exact rational arithmetic, truncated toward
zero (the argument is nonnegative, so this is the floor). -/
def block_size (sample_rate : ℕ) : ℤ := ⌊(sample_rate : ℚ) * double_0_02⌋

/-- The VAD-relevant observable part of the session state: the silence
counter, the speech-ever-detected flag and the stop flag. -/
def vad_obs (st : CaptureState) : ℚ × Bool × Bool :=
  (st.silence_duration, st.has_detected_speech, st.recording_finished)

/-- A small concrete configuration: 50 Hz mono, 180 s cap, VAD on with a
40 ms silence threshold (so one-sample frames last exactly 20 ms). -/
def cfgEx : CaptureCfg :=
  { sample_rate := 50, channels := 1, max_seconds := 180, vad_enabled := true,
    silence_ms_to_stop := 40 }

/-- A concrete classifier oracle keyed on the PCM bytes it receives:
the encoding of [1.0] is speech, the encoding of [0.5] faults,
everything else is silence. -/
def vadEx : VadOracle := fun bs _ =>
  if bs = [255, 127] then .speech else if bs = [255, 63] then .fault else .silence

/-- A one-sample mono frame that `vadEx` classifies as speech. -/
def speechFrame : Frame := [[1]]

/-- A one-sample mono frame that `vadEx` classifies as silence. -/
def silenceFrame : Frame := [[0]]

/-- A one-sample mono frame on which `vadEx` faults. -/
def faultFrame : Frame := [[1/2]]


/-! ### Branch lemmas for one callback invocation -/

theorem callback_step_vad_off {cfg : CaptureCfg} (vad : VadOracle)
    (st : CaptureState) (f : Frame) (h : cfg.vad_enabled = false) :
    callback_step cfg vad st f = { st with frames := st.frames ++ [f] } := by
  simp [callback_step, h]

theorem callback_step_fault {cfg : CaptureCfg} {vad : VadOracle}
    (st : CaptureState) {f : Frame} (hv : cfg.vad_enabled = true)
    (h : classify vad cfg f = .fault) :
    callback_step cfg vad st f = { st with frames := st.frames ++ [f] } := by
  simp [callback_step, hv, h]

theorem callback_step_speech {cfg : CaptureCfg} {vad : VadOracle}
    (st : CaptureState) {f : Frame} (hv : cfg.vad_enabled = true)
    (h : classify vad cfg f = .speech) :
    callback_step cfg vad st f =
      { st with frames := st.frames ++ [f], has_detected_speech := true,
                silence_duration := 0 } := by
  simp [callback_step, hv, h]

theorem callback_step_silence_leading {cfg : CaptureCfg} {vad : VadOracle}
    {st : CaptureState} {f : Frame} (hv : cfg.vad_enabled = true)
    (h : classify vad cfg f = .silence) (hd : st.has_detected_speech = false) :
    callback_step cfg vad st f = { st with frames := st.frames ++ [f] } := by
  simp [callback_step, hv, h, hd]

theorem callback_step_silence_after_speech {cfg : CaptureCfg} {vad : VadOracle}
    {st : CaptureState} {f : Frame} (hv : cfg.vad_enabled = true)
    (h : classify vad cfg f = .silence) (hd : st.has_detected_speech = true) :
    callback_step cfg vad st f =
      { st with frames := st.frames ++ [f],
                silence_duration :=
                  st.silence_duration + (f.length : ℚ) / (cfg.sample_rate : ℚ),
                recording_finished :=
                  (st.recording_finished ||
                    decide ((cfg.silence_ms_to_stop : ℚ) ≤
                      (st.silence_duration +
                        (f.length : ℚ) / (cfg.sample_rate : ℚ)) * 1000)) } := by
  by_cases hth : (cfg.silence_ms_to_stop : ℚ) ≤
      (st.silence_duration + (f.length : ℚ) / (cfg.sample_rate : ℚ)) * 1000
  · simp [callback_step, hv, h, hd, hth]
  · simp [callback_step, hv, h, hd, hth]

/-- Every branch of the callback appends the delivered frame, and only
that, to the buffer. -/
theorem callback_step_frames (cfg : CaptureCfg) (vad : VadOracle)
    (st : CaptureState) (f : Frame) :
    (callback_step cfg vad st f).frames = st.frames ++ [f] := by
  cases hv : cfg.vad_enabled with
  | false => rw [callback_step_vad_off vad st f hv]
  | true =>
    cases h : classify vad cfg f with
    | fault => rw [callback_step_fault st hv h]
    | speech => rw [callback_step_speech st hv h]
    | silence =>
      cases hd : st.has_detected_speech with
      | false => rw [callback_step_silence_leading hv h hd]
      | true => rw [callback_step_silence_after_speech hv h hd]

theorem run_callbacks_nil (cfg : CaptureCfg) (vad : VadOracle)
    (st : CaptureState) : run_callbacks cfg vad st [] = st := rfl

theorem run_callbacks_cons (cfg : CaptureCfg) (vad : VadOracle)
    (st : CaptureState) (f : Frame) (t : List Frame) :
    run_callbacks cfg vad st (f :: t) =
      run_callbacks cfg vad (callback_step cfg vad st f) t := rfl

/-- Over a whole run the buffer collects exactly the delivered frames in
arrival order. -/
theorem run_callbacks_frames (cfg : CaptureCfg) (vad : VadOracle)
    (st : CaptureState) (fs : List Frame) :
    (run_callbacks cfg vad st fs).frames = st.frames ++ fs := by
  induction fs generalizing st with
  | nil => simp [run_callbacks]
  | cons f t ih =>
    rw [run_callbacks_cons, ih, callback_step_frames]
    simp

theorem run_callbacks_append (cfg : CaptureCfg) (vad : VadOracle)
    (st : CaptureState) (p q : List Frame) :
    run_callbacks cfg vad st (p ++ q) =
      run_callbacks cfg vad (run_callbacks cfg vad st p) q :=
  List.foldl_append _ _ _ _

/-- A run in which no frame classifies as speech, started before speech was
ever detected, leaves the silence counter, the speech flag and the stop
flag untouched. -/
theorem run_callbacks_no_speech {cfg : CaptureCfg} {vad : VadOracle}
    {st : CaptureState} {fs : List Frame}
    (hs : ∀ f ∈ fs, classify vad cfg f ≠ .speech)
    (hd : st.has_detected_speech = false) :
    (run_callbacks cfg vad st fs).silence_duration = st.silence_duration ∧
    (run_callbacks cfg vad st fs).has_detected_speech = false ∧
    (run_callbacks cfg vad st fs).recording_finished = st.recording_finished := by
  induction fs generalizing st with
  | nil => exact ⟨rfl, hd, rfl⟩
  | cons f t ih =>
    have hstep : callback_step cfg vad st f = { st with frames := st.frames ++ [f] } := by
      cases hv : cfg.vad_enabled with
      | false => exact callback_step_vad_off vad st f hv
      | true =>
        cases h : classify vad cfg f with
        | fault => exact callback_step_fault st hv h
        | speech => exact absurd h (hs f (List.mem_cons_self f t))
        | silence => exact callback_step_silence_leading hv h hd
    rw [run_callbacks_cons, hstep]
    exact @ih { st with frames := st.frames ++ [f] }
      (fun g hg => hs g (List.mem_cons_of_mem f hg)) hd

/-- A run of frames all classified as silence and all of sample count `L`,
started after speech was detected and with VAD on: the silence counter
advances by `length * (L / sample_rate)` seconds, the speech flag stays
set, and the stop flag is set exactly when the accumulated counter has
reached the threshold (monotonicity makes the last frame decisive). -/
theorem run_callbacks_all_silence {cfg : CaptureCfg} {vad : VadOracle}
    {st : CaptureState} {fs : List Frame} {L : ℕ}
    (hv : cfg.vad_enabled = true)
    (hd : st.has_detected_speech = true)
    (hs : ∀ f ∈ fs, classify vad cfg f = .silence)
    (hl : ∀ f ∈ fs, f.length = L) :
    (run_callbacks cfg vad st fs).silence_duration
      = st.silence_duration + (fs.length : ℚ) * ((L : ℚ) / (cfg.sample_rate : ℚ)) ∧
    (run_callbacks cfg vad st fs).has_detected_speech = true ∧
    (run_callbacks cfg vad st fs).recording_finished
      = (st.recording_finished ||
          (decide (1 ≤ fs.length) &&
           decide ((cfg.silence_ms_to_stop : ℚ) ≤
             (st.silence_duration +
               (fs.length : ℚ) * ((L : ℚ) / (cfg.sample_rate : ℚ))) * 1000))) := by
  induction fs generalizing st with
  | nil => simp [run_callbacks, hd]
  | cons f t ih =>
    have hf : classify vad cfg f = .silence := hs f (List.mem_cons_self f t)
    have hfl : f.length = L := hl f (List.mem_cons_self f t)
    have hstep := callback_step_silence_after_speech hv hf hd
    rw [hfl] at hstep
    rw [run_callbacks_cons, hstep]
    obtain ⟨ih1, ih2, ih3⟩ :=
      @ih { st with
            frames := st.frames ++ [f],
            silence_duration :=
              st.silence_duration + (L : ℚ) / (cfg.sample_rate : ℚ),
            recording_finished :=
              (st.recording_finished ||
                decide ((cfg.silence_ms_to_stop : ℚ) ≤
                  (st.silence_duration + (L : ℚ) / (cfg.sample_rate : ℚ)) * 1000)) }
        hd (fun g hg => hs g (List.mem_cons_of_mem f hg))
        (fun g hg => hl g (List.mem_cons_of_mem f hg))
    simp only at ih1 ih2 ih3
    have hden : (0 : ℚ) ≤ (L : ℚ) / (cfg.sample_rate : ℚ) :=
      div_nonneg (Nat.cast_nonneg L) (Nat.cast_nonneg cfg.sample_rate)
    have hlen : ((t.length + 1 : ℕ) : ℚ) = (t.length : ℚ) + 1 := by push_cast; ring
    have hsum : st.silence_duration + (L : ℚ) / (cfg.sample_rate : ℚ)
          + (t.length : ℚ) * ((L : ℚ) / (cfg.sample_rate : ℚ))
        = st.silence_duration
          + ((t.length + 1 : ℕ) : ℚ) * ((L : ℚ) / (cfg.sample_rate : ℚ)) := by
      rw [hlen]; ring
    refine ⟨?_, ih2, ?_⟩
    · rw [ih1, List.length_cons, hsum]
    · rw [ih3, List.length_cons]
      rw [hsum]
      cases t with
      | nil =>
        simp only [List.length_nil]
        norm_num
      | cons g u =>
        have h1 : decide (1 ≤ (g :: u).length) = true := by
          simp [List.length_cons]
        have h1' : decide (1 ≤ (g :: u).length + 1) = true := by
          simp
        rw [h1, h1']
        simp only [Bool.true_and, Bool.or_assoc]
        congr 1
        by_cases hA : (cfg.silence_ms_to_stop : ℚ) ≤
            (st.silence_duration + (L : ℚ) / (cfg.sample_rate : ℚ)) * 1000
        · have hB : (cfg.silence_ms_to_stop : ℚ) ≤
              (st.silence_duration
                + (((g :: u).length + 1 : ℕ) : ℚ) * ((L : ℚ) / (cfg.sample_rate : ℚ))) * 1000 := by
            refine le_trans hA ?_
            have hstep' : st.silence_duration + (L : ℚ) / (cfg.sample_rate : ℚ)
                ≤ st.silence_duration
                  + (((g :: u).length + 1 : ℕ) : ℚ) * ((L : ℚ) / (cfg.sample_rate : ℚ)) := by
              have hmul : (1 : ℚ) * ((L : ℚ) / (cfg.sample_rate : ℚ))
                  ≤ (((g :: u).length + 1 : ℕ) : ℚ) * ((L : ℚ) / (cfg.sample_rate : ℚ)) := by
                refine mul_le_mul_of_nonneg_right ?_ hden
                have : (1 : ℚ) ≤ ((g :: u).length + 1 : ℕ) := by
                  exact_mod_cast Nat.succ_le_succ (Nat.zero_le _)
                exact this
              linarith [hmul]
            have := mul_le_mul_of_nonneg_right hstep' (by norm_num : (0 : ℚ) ≤ 1000)
            linarith [this]
          simp [hA]
          simpa using hB
        · simp [hA]

/-! ### Claim theorems -/

/-- C1: with VAD enabled, for every frame sequence consisting of a prefix
that has not yet stopped the capture, a frame classified as speech, and
then only frames classified as silence (each of `L` samples), the stop
flag after `j` trailing silence frames is set exactly when the
accumulated trailing-silence duration `j * (L / sampleRate)` seconds has
reached `silenceMsToStop` — never before, and at the first such frame;
and once the flag is set the supervising poll loop no longer continues,
so capture stops within one polling interval. -/
theorem capture_stops_at_silence_threshold
    (cfg : CaptureCfg) (vad : VadOracle) (p s : List Frame) (fk : Frame)
    (L j : ℕ) (active : Bool) (elapsed maxd : ℚ)
    (hv : cfg.vad_enabled = true)
    (hp : (run_callbacks cfg vad initState p).recording_finished = false)
    (hk : classify vad cfg fk = .speech)
    (hs : ∀ f ∈ s, classify vad cfg f = .silence)
    (hl : ∀ f ∈ s, f.length = L)
    (hj : j ≤ s.length) :
    (run_callbacks cfg vad initState (p ++ fk :: s.take j)).recording_finished
      = decide (1 ≤ j ∧ (cfg.silence_ms_to_stop : ℚ)
          ≤ (j : ℚ) * ((L : ℚ) / (cfg.sample_rate : ℚ)) * 1000)
    ∧ supervisor_continues active elapsed maxd true = false := by
  constructor
  · rw [run_callbacks_append, run_callbacks_cons,
        callback_step_speech (run_callbacks cfg vad initState p) hv hk]
    obtain ⟨h1, h2, h3⟩ :=
      @run_callbacks_all_silence cfg vad
        { run_callbacks cfg vad initState p with
          frames := (run_callbacks cfg vad initState p).frames ++ [fk],
          has_detected_speech := true, silence_duration := 0 }
        (s.take j) L hv rfl
        (fun g hg => hs g (List.take_subset j s hg))
        (fun g hg => hl g (List.take_subset j s hg))
    rw [h3]
    have hlen : (s.take j).length = j := by
      rw [List.length_take]; omega
    simp [hp, hlen]
  · simp [supervisor_continues]

/-- Closed instance of C1: 50 Hz mono with a 40 ms threshold, a speech
frame and then two 20 ms silence frames; the run is stopped after the
second silence frame, where the accumulated silence first reaches the
threshold. -/
theorem capture_stops_at_silence_threshold_witness :
    (run_callbacks cfgEx vadEx initState
        ([] ++ speechFrame :: ([silenceFrame, silenceFrame] : List Frame).take 2)).recording_finished
      = decide (1 ≤ 2 ∧ (cfgEx.silence_ms_to_stop : ℚ)
          ≤ (2 : ℚ) * ((1 : ℚ) / (cfgEx.sample_rate : ℚ)) * 1000)
    ∧ supervisor_continues true 1 180 true = false :=
  capture_stops_at_silence_threshold cfgEx vadEx [] [silenceFrame, silenceFrame]
    speechFrame 1 2 true 1 180 rfl rfl (by with_unfolding_all decide)
    (by with_unfolding_all decide) (by with_unfolding_all decide) (by decide)

/-- C2: if no delivered frame ever classifies as speech, the callback
never sets the stop flag and never marks speech as detected, for frame
sequences of any length; the supervising poll loop therefore continues
exactly while the elapsed time is below the maximum duration, so capture
runs until the timeout. -/
theorem no_speech_never_stops_early
    (cfg : CaptureCfg) (vad : VadOracle) (fs : List Frame) (elapsed maxd : ℚ)
    (hs : ∀ f ∈ fs, classify vad cfg f ≠ .speech) :
    (run_callbacks cfg vad initState fs).recording_finished = false ∧
    (run_callbacks cfg vad initState fs).has_detected_speech = false ∧
    supervisor_continues true elapsed maxd
        (run_callbacks cfg vad initState fs).recording_finished
      = decide (elapsed < maxd) := by
  obtain ⟨h1, h2, h3⟩ := @run_callbacks_no_speech cfg vad initState fs hs rfl
  have h3' : (run_callbacks cfg vad initState fs).recording_finished = false := h3
  refine ⟨h3', h2, ?_⟩
  rw [h3']
  simp [supervisor_continues]

/-- Closed instance of C2: a silence frame and a faulting frame leave the
stop flag unset and the supervisor condition equal to the timeout check. -/
theorem no_speech_never_stops_early_witness :
    (∀ f ∈ ([silenceFrame, faultFrame] : List Frame),
      classify vadEx cfgEx f ≠ .speech) ∧
    ((run_callbacks cfgEx vadEx initState [silenceFrame, faultFrame]).recording_finished = false ∧
     (run_callbacks cfgEx vadEx initState [silenceFrame, faultFrame]).has_detected_speech = false ∧
     supervisor_continues true 1 200
         (run_callbacks cfgEx vadEx initState [silenceFrame, faultFrame]).recording_finished
       = decide ((1 : ℚ) < 200)) :=
  ⟨by with_unfolding_all decide,
   no_speech_never_stops_early cfgEx vadEx [silenceFrame, faultFrame] 1 200
     (by with_unfolding_all decide)⟩

/-- C3: the silence counter resets to 0 on any speech frame; a non-speech
frame changes it only when speech was already detected and the frame
classified as silence, and then exactly by the frame's duration; and a
whole run with no speech frame (leading silence of any length) leaves the
counter at 0 and never sets the stop flag. -/
theorem silence_counter_reset_and_guard
    (cfg : CaptureCfg) (vad : VadOracle) (st : CaptureState) (f g : Frame)
    (fs : List Frame)
    (hv : cfg.vad_enabled = true)
    (hsp : classify vad cfg f = .speech)
    (hnos : ∀ x ∈ fs, classify vad cfg x ≠ .speech) :
    (callback_step cfg vad st f).silence_duration = 0 ∧
    (classify vad cfg g ≠ .speech →
      (callback_step cfg vad st g).silence_duration ≠ st.silence_duration →
      st.has_detected_speech = true ∧ classify vad cfg g = .silence ∧
      (callback_step cfg vad st g).silence_duration
        = st.silence_duration + (g.length : ℚ) / (cfg.sample_rate : ℚ)) ∧
    (run_callbacks cfg vad initState fs).silence_duration = 0 ∧
    (run_callbacks cfg vad initState fs).recording_finished = false := by
  obtain ⟨r1, r2, r3⟩ := @run_callbacks_no_speech cfg vad initState fs hnos rfl
  have r1' : (run_callbacks cfg vad initState fs).silence_duration = 0 := r1
  have r3' : (run_callbacks cfg vad initState fs).recording_finished = false := r3
  refine ⟨?_, ?_, r1', r3'⟩
  · rw [callback_step_speech st hv hsp]
  · intro hg hne
    cases hcl : classify vad cfg g with
    | speech => exact absurd hcl hg
    | fault =>
      rw [callback_step_fault st hv hcl] at hne
      exact absurd rfl hne
    | silence =>
      cases hd : st.has_detected_speech with
      | false =>
        rw [callback_step_silence_leading hv hcl hd] at hne
        exact absurd rfl hne
      | true =>
        rw [callback_step_silence_after_speech hv hcl hd]
        exact ⟨rfl, rfl, rfl⟩

/-- Closed instance of C3 at the concrete configuration: a speech frame
resets the counter, a silence frame changes it only under the guard, and
two non-speech frames leave the counter at 0 with no stop. -/
theorem silence_counter_reset_and_guard_witness :
    (∀ x ∈ ([silenceFrame, faultFrame] : List Frame),
      classify vadEx cfgEx x ≠ .speech) ∧
    ((callback_step cfgEx vadEx initState speechFrame).silence_duration = 0 ∧
     (classify vadEx cfgEx silenceFrame ≠ .speech →
       (callback_step cfgEx vadEx initState silenceFrame).silence_duration
         ≠ initState.silence_duration →
       initState.has_detected_speech = true ∧
       classify vadEx cfgEx silenceFrame = .silence ∧
       (callback_step cfgEx vadEx initState silenceFrame).silence_duration
         = initState.silence_duration
           + (silenceFrame.length : ℚ) / (cfgEx.sample_rate : ℚ)) ∧
     (run_callbacks cfgEx vadEx initState [silenceFrame, faultFrame]).silence_duration = 0 ∧
     (run_callbacks cfgEx vadEx initState [silenceFrame, faultFrame]).recording_finished = false) :=
  ⟨by with_unfolding_all decide,
   silence_counter_reset_and_guard cfgEx vadEx initState speechFrame silenceFrame
     [silenceFrame, faultFrame] rfl (by with_unfolding_all decide)
     (by with_unfolding_all decide)⟩

/-- C4 counterexample: after a speech frame, a classifier fault leaves the
silence counter at 0 while the same position classified as silence
advances it to 1/50 s — the two runs do not have identical state after
that frame, refuting the claimed equivalence with a silence
classification. -/
theorem classifier_fault_not_equiv_silence :
    classify vadEx cfgEx speechFrame = .speech ∧
    classify vadEx cfgEx faultFrame = .fault ∧
    classify vadEx cfgEx silenceFrame = .silence ∧
    (run_callbacks cfgEx vadEx initState [speechFrame, faultFrame]).silence_duration
      ≠ (run_callbacks cfgEx vadEx initState [speechFrame, silenceFrame]).silence_duration := by
  with_unfolding_all decide

/-- C4 amended: a classifier fault on a frame never stops capture and
leaves `silence_duration` and `has_detected_speech` (and the stop flag)
exactly as they were — the run proceeds as if no classification occurred
for that frame, which coincides with a silence classification only while
speech has not yet been detected. -/
theorem classifier_fault_leaves_state_unchanged
    (cfg : CaptureCfg) (vad : VadOracle) (st : CaptureState) (f : Frame)
    (hv : cfg.vad_enabled = true)
    (hfault : classify vad cfg f = .fault) :
    (callback_step cfg vad st f).silence_duration = st.silence_duration ∧
    (callback_step cfg vad st f).has_detected_speech = st.has_detected_speech ∧
    (callback_step cfg vad st f).recording_finished = st.recording_finished ∧
    (callback_step cfg vad st f).frames = st.frames ++ [f] := by
  rw [callback_step_fault st hv hfault]
  exact ⟨rfl, rfl, rfl, rfl⟩

/-- The staged pipeline (clip array, scale-truncate array, serialize) is
the per-sample pipeline flat-mapped over the input. -/
theorem float_to_pcm16_eq_flatMap (data : List ℚ) :
    float_to_pcm16 data = data.flatMap pcm16_pair := by
  induction data with
  | nil => rfl
  | cons x t ih =>
    simp only [float_to_pcm16, np_clip, astype_int16, tobytes, List.map_cons,
      List.flatMap_cons] at ih ⊢
    rw [ih]
    rfl

theorem pcm16_pair_eq (x : ℚ) :
    pcm16_pair x = [byte_lo (trunc_to_int (clip1 x * 32767)),
                    byte_hi (trunc_to_int (clip1 x * 32767))] := rfl

theorem float_to_pcm16_length (data : List ℚ) :
    (float_to_pcm16 data).length = 2 * data.length := by
  rw [float_to_pcm16_eq_flatMap]
  induction data with
  | nil => rfl
  | cons x t ih =>
    rw [List.flatMap_cons, List.length_append, ih, pcm16_pair_eq]
    simp [Nat.mul_succ, Nat.add_comm]

theorem float_to_pcm16_pair_at (data : List ℚ) (i : ℕ) (h : i < data.length) :
    (float_to_pcm16 data)[2 * i]?
        = some (byte_lo (trunc_to_int (clip1 data[i] * 32767))) ∧
    (float_to_pcm16 data)[2 * i + 1]?
        = some (byte_hi (trunc_to_int (clip1 data[i] * 32767))) := by
  rw [float_to_pcm16_eq_flatMap]
  induction data generalizing i with
  | nil => simp at h
  | cons x t ih =>
    rw [List.flatMap_cons, pcm16_pair_eq]
    cases i with
    | zero => simp
    | succ i' =>
      have h' : i' < t.length := by simpa using h
      have e1 : 2 * (i' + 1) = 2 * i' + 1 + 1 := by ring
      rw [e1]
      simp only [List.cons_append, List.nil_append, List.getElem?_cons_succ,
        List.getElem_cons_succ]
      exact ih i' h'

/-- Closed instance of the amended C4 at the faulting frame. -/
theorem classifier_fault_leaves_state_unchanged_witness :
    classify vadEx cfgEx faultFrame = .fault ∧
    ((callback_step cfgEx vadEx initState faultFrame).silence_duration
        = initState.silence_duration ∧
     (callback_step cfgEx vadEx initState faultFrame).has_detected_speech
        = initState.has_detected_speech ∧
     (callback_step cfgEx vadEx initState faultFrame).recording_finished
        = initState.recording_finished ∧
     (callback_step cfgEx vadEx initState faultFrame).frames
        = initState.frames ++ [faultFrame]) :=
  ⟨by with_unfolding_all decide,
   classifier_fault_leaves_state_unchanged cfgEx vadEx initState faultFrame rfl
     (by with_unfolding_all decide)⟩

/-- C5: the PCM16 encoder is total and deterministic: its output has one
little-endian byte pair per input sample, in input order, with the pair at
position `i` holding the sample clipped to [-1, 1], scaled by 32767 and
truncated toward zero; in particular 1.0 and 1.5 encode identically (both
clip to 32767 = bytes [255, 127]) and -1.0 and -2.0 encode identically
(both clip to -32767 = bytes [1, 128]). -/
theorem float_to_pcm16_spec (data : List ℚ) (i : ℕ) (h : i < data.length) :
    (float_to_pcm16 data).length = 2 * data.length ∧
    float_to_pcm16 data = data.flatMap pcm16_pair ∧
    (float_to_pcm16 data)[2 * i]?
        = some (byte_lo (trunc_to_int (clip1 data[i] * 32767))) ∧
    (float_to_pcm16 data)[2 * i + 1]?
        = some (byte_hi (trunc_to_int (clip1 data[i] * 32767))) ∧
    float_to_pcm16 [1] = float_to_pcm16 [(3 / 2 : ℚ)] ∧
    float_to_pcm16 [-1] = float_to_pcm16 [(-2 : ℚ)] ∧
    float_to_pcm16 [1] = [255, 127] ∧
    float_to_pcm16 [-1] = [1, 128] := by
  obtain ⟨hlo, hhi⟩ := float_to_pcm16_pair_at data i h
  refine ⟨float_to_pcm16_length data, float_to_pcm16_eq_flatMap data, hlo, hhi,
    ?_, ?_, ?_, ?_⟩ <;> with_unfolding_all decide

/-- Closed instance of C5 on the two-sample input [1, -1] at index 1. -/
theorem float_to_pcm16_spec_witness :
    1 < ([(1 : ℚ), -1] : List ℚ).length ∧
    ((float_to_pcm16 [(1 : ℚ), -1]).length = 2 * ([(1 : ℚ), -1] : List ℚ).length ∧
     float_to_pcm16 [(1 : ℚ), -1] = ([(1 : ℚ), -1] : List ℚ).flatMap pcm16_pair ∧
     (float_to_pcm16 [(1 : ℚ), -1])[2 * 1]?
         = some (byte_lo (trunc_to_int (clip1 (-1) * 32767))) ∧
     (float_to_pcm16 [(1 : ℚ), -1])[2 * 1 + 1]?
         = some (byte_hi (trunc_to_int (clip1 (-1) * 32767))) ∧
     float_to_pcm16 [1] = float_to_pcm16 [(3 / 2 : ℚ)] ∧
     float_to_pcm16 [-1] = float_to_pcm16 [(-2 : ℚ)] ∧
     float_to_pcm16 [1] = [255, 127] ∧
     float_to_pcm16 [-1] = [1, 128]) :=
  ⟨by decide, float_to_pcm16_spec [(1 : ℚ), -1] 1 (by decide)⟩

/-- C6: when the capture loop completes with zero frames in the buffer,
the concatenated array is empty and `_write_wav` raises
AudioError("No audio captured") before opening any file: the result is the
error and no WAV artifact value is produced. -/
theorem zero_frames_audio_error (cfg : CaptureCfg) (st : CaptureState)
    (h : st.frames = []) :
    record_to_path cfg .completed st = .error (.audioError "No audio captured") := by
  simp [record_to_path, h, write_wav, np_size]

/-- Closed instance of C6: the initial (empty-buffer) state yields the
"No audio captured" error. -/
theorem zero_frames_audio_error_witness :
    record_to_path cfgEx .completed initState
      = .error (.audioError "No audio captured") :=
  zero_frames_audio_error cfgEx initState rfl

/-- C7 counterexample: a run interrupted by the user cancel signal with a
non-empty frame buffer is not serialized — `record_to_path` yields the
propagating KeyboardInterrupt error, not a WAV artifact, refuting the
claim that the partial buffer is still written on cancel. -/
theorem interrupt_discards_nonempty_buffer :
    (run_callbacks cfgEx vadEx initState [speechFrame]).frames = [speechFrame] ∧
    record_to_path cfgEx .interrupted (run_callbacks cfgEx vadEx initState [speechFrame])
      = .error .keyboardInterrupt := by
  constructor
  · with_unfolding_all decide
  · rfl

/-- C7 amended: an external cancel (KeyboardInterrupt) always aborts the
capture without serializing: whatever the buffered state — empty or not —
the interrupt propagates out of `_record_to_path` before `_write_wav`, so
no artifact is produced (and NoAudioCaptured is not raised on this path);
the CLI catches it and returns exit code 1 with no file. -/
theorem interrupt_aborts_without_artifact (cfg : CaptureCfg) (st : CaptureState) :
    record_to_path cfg .interrupted st = .error .keyboardInterrupt ∧
    command_once_record (record_to_path cfg .interrupted st) = (1, none) :=
  ⟨rfl, rfl⟩

/-- C8: every delivered frame is appended to the buffer regardless of
classification, the buffer is exactly the arrival-ordered frame sequence,
and the completed-capture artifact is built from the concatenation of all
buffered frames — including any trailing-silence window, which is not
trimmed. -/
theorem frames_always_buffered_and_serialized
    (cfg : CaptureCfg) (vad : VadOracle) (st : CaptureState) (f : Frame)
    (fs : List Frame) :
    (callback_step cfg vad st f).frames = st.frames ++ [f] ∧
    (run_callbacks cfg vad initState fs).frames = fs ∧
    record_to_path cfg .completed (run_callbacks cfg vad initState fs)
      = write_wav cfg fs.flatten := by
  have h2 : (run_callbacks cfg vad initState fs).frames = fs := by
    have := run_callbacks_frames cfg vad initState fs
    simpa [initState] using this
  refine ⟨callback_step_frames cfg vad st f, h2, ?_⟩
  simp [record_to_path, h2]

/-- C9 counterexample: at sample rate 8001 the computed block size is 160
samples, which is 20 ms of audio at 8000 Hz, not 8001 Hz: the 20 ms
frame-size identity fails for rates not divisible by 50. -/
theorem block_size_8001_not_20ms : block_size 8001 * 50 ≠ 8001 := by
  with_unfolding_all decide

/-- C9 amended: the block size `int(sample_rate * 0.02)` equals exactly
20 ms of audio (blockSize * 50 = sampleRate) for every positive sample
rate divisible by 50 (stated up to 2^60, far beyond any audio rate and
within the precision of the double constant 0.02). -/
theorem block_size_exact_20ms_of_div50
    (n : ℕ) (h1 : 0 < n) (h2 : n % 50 = 0) (h3 : n ≤ 2 ^ 60) :
    block_size n * 50 = n := by
  obtain ⟨k, hk⟩ : ∃ k, n = 50 * k := ⟨n / 50, by omega⟩
  subst hk
  have hk58 : 6 * (k : ℚ) < 2 ^ 58 := by
    have hkn : (k : ℚ) * 50 ≤ 2 ^ 60 := by
      have := h3
      have hc : ((50 * k : ℕ) : ℚ) ≤ ((2 ^ 60 : ℕ) : ℚ) := by exact_mod_cast this
      push_cast at hc
      linarith [hc]
    nlinarith [hkn]
  have hval : ((50 * k : ℕ) : ℚ) * double_0_02 = (k : ℚ) + 6 * k / 2 ^ 58 := by
    unfold double_0_02
    push_cast
    ring
  have hfloor : ⌊((50 * k : ℕ) : ℚ) * double_0_02⌋ = (k : ℤ) := by
    rw [hval, Int.floor_eq_iff]
    constructor
    · have : (0 : ℚ) ≤ 6 * k / 2 ^ 58 := by positivity
      push_cast
      linarith [this]
    · have hlt : 6 * (k : ℚ) / 2 ^ 58 < 1 := by
        rw [div_lt_one (by positivity)]
        linarith [hk58]
      push_cast
      linarith [hlt]
  rw [block_size, hfloor]
  push_cast
  ring

/-- Closed instance of the amended C9 at the default rate 16000. -/
theorem block_size_exact_20ms_of_div50_witness :
    0 < 16000 ∧ 16000 % 50 = 0 ∧ 16000 ≤ 2 ^ 60 ∧ block_size 16000 * 50 = 16000 :=
  ⟨by decide, by decide, by decide,
   block_size_exact_20ms_of_div50 16000 (by decide) (by decide) (by decide)⟩

/-- One callback invocation is observationally congruent in the VAD state
for frames agreeing on channel 0: the classifier input and the frame
duration depend only on that column. -/
theorem callback_step_obs_congr (cfg : CaptureCfg) (vad : VadOracle)
    {s1 s2 : CaptureState} {f1 f2 : Frame}
    (hcol : col0 f1 = col0 f2) (hobs : vad_obs s1 = vad_obs s2) :
    vad_obs (callback_step cfg vad s1 f1) = vad_obs (callback_step cfg vad s2 f2) := by
  have hsd : s1.silence_duration = s2.silence_duration :=
    congrArg Prod.fst hobs
  have hhd : s1.has_detected_speech = s2.has_detected_speech :=
    congrArg (fun p => p.2.1) hobs
  have hrf : s1.recording_finished = s2.recording_finished :=
    congrArg (fun p => p.2.2) hobs
  have hlen : f1.length = f2.length := by
    have hlc := congrArg List.length hcol
    simpa [col0] using hlc
  have hcl : classify vad cfg f1 = classify vad cfg f2 := by
    simp [classify, hcol]
  cases hv : cfg.vad_enabled with
  | false =>
    rw [callback_step_vad_off vad s1 f1 hv, callback_step_vad_off vad s2 f2 hv]
    simp [vad_obs, hsd, hhd, hrf]
  | true =>
    cases hc : classify vad cfg f2 with
    | speech =>
      rw [callback_step_speech s1 hv (hcl.trans hc), callback_step_speech s2 hv hc]
      simp [vad_obs, hrf]
    | fault =>
      rw [callback_step_fault s1 hv (hcl.trans hc), callback_step_fault s2 hv hc]
      simp [vad_obs, hsd, hhd, hrf]
    | silence =>
      cases hd2 : s2.has_detected_speech with
      | false =>
        rw [callback_step_silence_leading hv (hcl.trans hc) (hhd.trans hd2),
            callback_step_silence_leading hv hc hd2]
        simp [vad_obs, hsd, hhd, hrf]
      | true =>
        rw [callback_step_silence_after_speech hv (hcl.trans hc) (hhd.trans hd2),
            callback_step_silence_after_speech hv hc hd2]
        simp [vad_obs, hsd, hhd, hrf, hlen]

/-- Whole runs are observationally congruent in the VAD state for frame
sequences agreeing pointwise on channel 0. -/
theorem run_callbacks_obs_congr (cfg : CaptureCfg) (vad : VadOracle) :
    ∀ {fs1 fs2 : List Frame} {s1 s2 : CaptureState},
    fs1.map col0 = fs2.map col0 → vad_obs s1 = vad_obs s2 →
    vad_obs (run_callbacks cfg vad s1 fs1) = vad_obs (run_callbacks cfg vad s2 fs2) := by
  intro fs1
  induction fs1 with
  | nil =>
    intro fs2 s1 s2 hmap hobs
    have : fs2 = [] := by
      have := hmap.symm
      simpa using List.map_eq_nil_iff.mp this
    subst this
    exact hobs
  | cons f1 t1 ih =>
    intro fs2 s1 s2 hmap hobs
    cases fs2 with
    | nil => simp at hmap
    | cons f2 t2 =>
      simp only [List.map_cons, List.cons.injEq] at hmap
      rw [run_callbacks_cons, run_callbacks_cons]
      exact ih hmap.2 (callback_step_obs_congr cfg vad hmap.1 hobs)

/-- A stereo configuration for the channel-0 instance: 50 Hz, 2 channels,
VAD on with a 40 ms threshold. -/
def cfg2Ex : CaptureCfg :=
  { sample_rate := 50, channels := 2, max_seconds := 180, vad_enabled := true,
    silence_ms_to_stop := 40 }

/-- A one-sample stereo frame: channel 0 silent, channel 1 at 1/4. -/
def stereoFrameA : Frame := [[0, 1/4]]

/-- A one-sample stereo frame: channel 0 silent, channel 1 at 9/10. -/
def stereoFrameB : Frame := [[0, 9/10]]

/-- C10: with VAD enabled and more than one channel, only channel 0 of
each frame reaches the classifier: two runs whose frame sequences agree
on channel 0 (but may differ arbitrarily on the other channels) have
identical silence counter, speech flag and stop flag throughout, while
each run still buffers its own full multi-channel frames for the
artifact. -/
theorem classification_depends_only_on_channel0
    (cfg : CaptureCfg) (vad : VadOracle) (fs1 fs2 : List Frame)
    (hch : 1 < cfg.channels)
    (hcol : fs1.map col0 = fs2.map col0) :
    vad_obs (run_callbacks cfg vad initState fs1)
      = vad_obs (run_callbacks cfg vad initState fs2) ∧
    (run_callbacks cfg vad initState fs1).frames = fs1 ∧
    (run_callbacks cfg vad initState fs2).frames = fs2 := by
  refine ⟨run_callbacks_obs_congr cfg vad hcol rfl, ?_, ?_⟩
  · have := run_callbacks_frames cfg vad initState fs1
    simpa [initState] using this
  · have := run_callbacks_frames cfg vad initState fs2
    simpa [initState] using this

/-- Closed instance of C10: two stereo frames agreeing on channel 0 but
differing on channel 1 produce identical VAD state, and each is buffered
in full. -/
theorem classification_depends_only_on_channel0_witness :
    1 < cfg2Ex.channels ∧
    ([stereoFrameA] : List Frame).map col0 = ([stereoFrameB] : List Frame).map col0 ∧
    (vad_obs (run_callbacks cfg2Ex vadEx initState [stereoFrameA])
       = vad_obs (run_callbacks cfg2Ex vadEx initState [stereoFrameB]) ∧
     (run_callbacks cfg2Ex vadEx initState [stereoFrameA]).frames = [stereoFrameA] ∧
     (run_callbacks cfg2Ex vadEx initState [stereoFrameB]).frames = [stereoFrameB]) :=
  ⟨by decide, by with_unfolding_all decide,
   classification_depends_only_on_channel0 cfg2Ex vadEx [stereoFrameA] [stereoFrameB]
     (by decide) (by with_unfolding_all decide)⟩

end Omnivocal
